import Mathlib

/-!
Verification of the retrieval + orchestration pipeline of the
Clinical_desicion_support repository.

The Python sources are shallowly embedded: strings become `List Char`,
numpy vectors become `List ℚ`, dictionaries become structures or
association lists, and effectful calls (LLM backends, file system,
logging) become explicit data (`Except`, `Option` artifacts, returned
log / trace lists).  Every definition mirrors one function of the
source tree, named after it.
-/

namespace CDSS

/-- Python strings are modelled as lists of characters. -/
abbrev Str := List Char

/-- Coerce a Lean string literal into the `Str` model. -/
def lit (s : String) : Str := s.toList

/-- The characters Python `str.split()` / `str.strip()` treat as whitespace
(space, tab, newline, carriage return, vertical tab, form feed). -/
def isPySpace (c : Char) : Bool :=
  c = ' ' || c = '\t' || c = '\n' || c = '\r' || c = Char.ofNat 11 || c = Char.ofNat 12

/-- Delete every whitespace character (used to compare texts modulo separators). -/
def delWs (s : Str) : Str := s.filter (fun c => !isPySpace c)

/-- Python `s.strip()`: drop leading and trailing whitespace. -/
def pyStrip (s : Str) : Str :=
  ((s.dropWhile isPySpace).reverse.dropWhile isPySpace).reverse

/-- Helper for `pySplit`, carrying the current (reversed) word. -/
def pySplitAux : Str → Str → List Str
  | [], acc => if acc.isEmpty then [] else [acc.reverse]
  | c :: rest, acc =>
    if isPySpace c then
      if acc.isEmpty then pySplitAux rest []
      else acc.reverse :: pySplitAux rest []
    else pySplitAux rest (c :: acc)

/-- Python `s.split()` with no argument: split on runs of whitespace,
discarding empty pieces. -/
def pySplit (s : Str) : List Str := pySplitAux s []

/-- The paragraph separator `"\n\n"`. -/
def nnSep : Str := ['\n', '\n']

/-- Python `s.split("\n\n")`: split on non-overlapping occurrences of the
two-character separator, scanning left to right; may produce empty pieces. -/
def splitNN : Str → List Str
  | [] => [[]]
  | '\n' :: '\n' :: rest => [] :: splitNN rest
  | c :: rest =>
    match splitNN rest with
    | [] => [[c]]
    | p :: ps => (c :: p) :: ps

/-- Python `sep.join(parts)`. -/
def pyJoin (sep : Str) : List Str → Str
  | [] => []
  | [x] => x
  | x :: xs => x ++ sep ++ pyJoin sep xs

/-- Metadata values: the source stores strings and integers in metadata dicts. -/
inductive MVal
  | str (s : Str)
  | num (n : Nat)
deriving DecidableEq, Repr

/-- A metadata dictionary, modelled as an association list. -/
abbrev Meta := List (Str × MVal)

/-- Python dict update `{**m, k: v}` restricted to one key: drop any old
binding for `k` and append the new one. -/
def metaSet (m : Meta) (k : Str) (v : MVal) : Meta :=
  (m.filter (fun kv => kv.1 ≠ k)) ++ [(k, v)]

/-- A document dict with `content` and `metadata` keys
(`src/data_ingestion.py`, `src/vector_store.py`). -/
structure Document where
  content : Str
  metadata : Meta
deriving DecidableEq, Repr

/-- The inner word-packing loop of `chunk_document`
(`src/data_ingestion.py` lines 149-157): greedily pack
whitespace-delimited words into sub-chunks. -/
def packWords (chunk_size : Nat) : List Str → List Str → Str → List Str × Str
  | [], chunks, current => (chunks, current)
  | word :: words, chunks, current =>
    if current.length + word.length + 1 ≤ chunk_size then
      packWords chunk_size words chunks
        (if current.isEmpty then word else current ++ [' '] ++ word)
    else
      packWords chunk_size words
        (if current.isEmpty then chunks else chunks ++ [current]) word

/-- The paragraph loop of `chunk_document`
(`src/data_ingestion.py` lines 141-159): greedily accumulate paragraphs,
flushing when the next one would overflow, and falling back to word
packing when a single paragraph exceeds `chunk_size`. -/
def packParas (chunk_size : Nat) : List Str → List Str → Str → List Str × Str
  | [], chunks, current => (chunks, current)
  | para :: paras, chunks, current =>
    if current.length + para.length + 2 ≤ chunk_size then
      packParas chunk_size paras chunks
        (if current.isEmpty then para else current ++ nnSep ++ para)
    else
      let chunks1 := if current.isEmpty then chunks else chunks ++ [current]
      if chunk_size < para.length then
        let r := packWords chunk_size (pySplit para) chunks1 []
        packParas chunk_size paras r.1 r.2
      else
        packParas chunk_size paras chunks1 para

/-- `chunk_document` (`src/data_ingestion.py` lines 112-174): documents not
longer than `chunk_size` are returned unchanged; otherwise the text is split
on paragraph boundaries, packed greedily, each emitted chunk is stripped and
inherits the parent metadata plus `chunk_index` / `total_chunks`. -/
def chunk_document (chunk_size : Nat) (doc : Document) : List Document :=
  if doc.content.length ≤ chunk_size then [doc]
  else
    let r := packParas chunk_size (splitNN doc.content) [] []
    let chunks := if r.2.isEmpty then r.1 else r.1 ++ [r.2]
    chunks.enum.map (fun ic =>
      { content := pyStrip ic.2
        metadata := metaSet (metaSet doc.metadata (lit "chunk_index") (MVal.num ic.1))
          (lit "total_chunks") (MVal.num chunks.length) })

/-- A string of non-whitespace characters only — a single indivisible word,
as produced by `pySplit`. -/
def wordOnly (s : Str) : Prop := ∀ c ∈ s, isPySpace c = false

/-- The size discipline `chunk_document` maintains: every produced chunk
either fits in `chunk_size` or is a single indivisible word. -/
def chunkOK (chunk_size : Nat) (s : Str) : Prop :=
  s.length ≤ chunk_size ∨ wordOnly s

/-- The embedding engine (`src/embeddings.py`): converts text to a dense
vector.  The backing sentence-transformer model is an external collaborator,
so the map from text to vector is a parameter of the model. -/
structure EmbeddingEngine where
  embed_text : Str → List ℚ

/-- A numpy float array as produced by `np.asarray` on a batch of embedding
vectors: its shape tuple together with its rows.  A non-empty uniform batch
is rank 2 with shape `(n, dim)`; the empty batch `np.asarray([])` is rank 1
with shape `(0,)`. -/
structure NpArray where
  shape : List Nat
  rows : List (List ℚ)

/-- `EmbeddingEngine.embed_texts` (`src/embeddings.py` lines 36-52):
`model.encode` encodes each text and packs the vectors as a numpy array —
rank-2 `(n, dim)` for a non-empty batch, but the empty batch yields
`np.asarray([])`, a rank-1 array of shape `(0,)`. -/
def EmbeddingEngine.embed_texts (e : EmbeddingEngine) (texts : List Str) : NpArray :=
  match texts.map e.embed_text with
  | [] => { shape := [0], rows := [] }
  | v :: vs => { shape := [(v :: vs).length, v.length], rows := v :: vs }

/-- Squared Euclidean (L2) distance, the metric of `faiss.IndexFlatL2`.
Dimensions agree in every use; extra trailing coordinates are ignored. -/
def sqDist (q v : List ℚ) : ℚ :=
  ((q.zip v).map (fun p => (p.1 - p.2) ^ 2)).sum

/-- Ascending order on `(distance, position)` pairs by distance. -/
def distLE (a b : ℚ × Nat) : Prop := a.1 ≤ b.1

instance : DecidableRel distLE := fun a b => inferInstanceAs (Decidable (a.1 ≤ b.1))

instance : IsTotal (ℚ × Nat) distLE := ⟨fun a b => le_total a.1 b.1⟩

instance : IsTrans (ℚ × Nat) distLE := ⟨fun _ _ _ h1 h2 => le_trans h1 h2⟩

/-- Sort `(distance, position)` pairs by ascending distance: the order in
which `faiss.IndexFlatL2.search` reports its nearest neighbours. -/
def sortAsc (l : List (ℚ × Nat)) : List (ℚ × Nat) := l.insertionSort distLE

/-- `VectorStore` (`src/vector_store.py`): a FAISS flat-L2 index (the list of
stored vectors, in insertion order) with the parallel `documents` array. -/
structure VectorStore where
  dimension : Nat
  index_path : Option Str
  embedding_engine : EmbeddingEngine
  index : List (List ℚ)
  documents : List Document

/-- `VectorStore.count` (`src/vector_store.py` lines 142-145): the FAISS
index's `ntotal`, i.e. the number of stored vectors. -/
def VectorStore.count (vs : VectorStore) : Nat := vs.index.length

/-- `faiss.IndexFlatL2.add` through its Python wrapper: the wrapper begins
with `n, d = x.shape`, which raises `ValueError` on any array that is not
rank 2, then asserts `d == self.d`, and finally appends the rows to the
index. -/
def faissAdd (dim : Nat) (index : List (List ℚ)) (x : NpArray) :
    Except Str (List (List ℚ)) :=
  match x.shape with
  | [_, d] =>
    if d = dim then .ok (index ++ x.rows)
    else .error (lit "AssertionError: d == self.d")
  | _ => .error (lit "not enough values to unpack (expected 2, got 1)")

/-- `VectorStore.add_documents` (`src/vector_store.py` lines 38-54): embed
all contents in one batch, hand the resulting array to the FAISS index's
`add` (which raises on a non-rank-2 array, in particular on the shape-`(0,)`
empty batch), and extend the documents array. -/
def VectorStore.add_documents (vs : VectorStore) (documents : List Document) :
    Except Str VectorStore :=
  let texts := documents.map Document.content
  let embeddings := vs.embedding_engine.embed_texts texts
  match faissAdd vs.dimension vs.index embeddings with
  | .ok idx => .ok { vs with index := idx, documents := vs.documents ++ documents }
  | .error e => .error e

/-- A search hit (`src/vector_store.py` lines 92-96). -/
structure SearchResult where
  content : Str
  metadata : Meta
  score : ℚ
deriving DecidableEq, Repr

/-- The result-building loop body of `VectorStore.search`
(`src/vector_store.py` lines 90-97): a `(distance, position)` pair becomes a
hit when its position lies inside the documents array, with
`score = 1 / (1 + distance)`. -/
def VectorStore.searchHit (vs : VectorStore) (di : ℚ × Nat) : Option SearchResult :=
  if h : di.2 < vs.documents.length then
    some { content := (vs.documents.get ⟨di.2, h⟩).content
           metadata := (vs.documents.get ⟨di.2, h⟩).metadata
           score := 1 / (1 + di.1) }
  else none

/-- `VectorStore.search` (`src/vector_store.py` lines 67-99): empty index
gives `[]`; otherwise embed the query, take the `min k ntotal` nearest
vectors by ascending squared-L2 distance, and build the hits. -/
def VectorStore.search (vs : VectorStore) (query : Str) (k : Nat) : List SearchResult :=
  if vs.count = 0 then []
  else
    let q := vs.embedding_engine.embed_text query
    let pairs := vs.index.enum.map (fun iv => (sqDist q iv.2, iv.1))
    let top := (sortAsc pairs).take (min k vs.count)
    top.filterMap vs.searchHit

/-- The two co-located artifacts a store directory may hold
(`index.faiss` and `documents.json`); `none` means the file is absent. -/
structure DiskDir where
  index_file : Option (List (List ℚ))
  docs_file : Option (List Document)

/-- Python string truthiness for optional paths: `None` and `""` are falsy. -/
def truthyPath (p : Option Str) : Option Str :=
  match p with
  | none => none
  | some s => if s.isEmpty then none else some s

/-- `VectorStore.save` (`src/vector_store.py` lines 101-116): raise
`ValueError` when neither the argument nor the configured path is set;
otherwise write both artifacts. -/
def VectorStore.save (vs : VectorStore) (path : Option Str) : Except Str DiskDir :=
  match (truthyPath path).orElse (fun _ => truthyPath vs.index_path) with
  | none => .error (lit "No path provided for saving")
  | some _ => .ok { index_file := some vs.index, docs_file := some vs.documents }

/-- `VectorStore.load` (`src/vector_store.py` lines 118-134): raise
`ValueError` when no path is available; otherwise replace the index if
`index.faiss` exists and replace the documents if `documents.json` exists —
each check is independent, and a missing file leaves that side unchanged. -/
def VectorStore.load (vs : VectorStore) (path : Option Str) (disk : DiskDir) :
    Except Str VectorStore :=
  match (truthyPath path).orElse (fun _ => truthyPath vs.index_path) with
  | none => .error (lit "No path provided for loading")
  | some _ => .ok { vs with
      index := disk.index_file.getD vs.index
      documents := disk.docs_file.getD vs.documents }

/-- `VectorStore.clear` (`src/vector_store.py` lines 136-140). -/
def VectorStore.clear (vs : VectorStore) : VectorStore :=
  { vs with index := [], documents := [] }

/-- A chat message `{role, content}`. -/
abbrev Message := Str × Str

/-- A generation backend client: invoked with the chat messages, it either
returns the generated text or raises with a human-readable cause string.
Models one `client.chat.completions.create` call of `src/llm_handler.py`. -/
abbrev Backend := List Message → Except Str Str

/-- One per-drug record of the openFDA drug report consumed by
`src/llm_handler.py` (`found`, `warnings`, `contraindications`,
`common_adverse_events`). -/
structure DrugRecord where
  found : Bool
  warnings : List Str
  contraindications : List Str
  common_adverse_events : List Str
deriving DecidableEq, Repr

/-- The aggregated drug report dict (`drugs`, `potential_interactions`). -/
structure DrugInfo where
  drugs : List (Str × DrugRecord)
  potential_interactions : List Str
deriving DecidableEq, Repr

/-- `CLINICAL_SYSTEM_PROMPT` (`src/config.py` lines 71-99); the system
instruction text given to every backend. -/
def CLINICAL_SYSTEM_PROMPT : Str :=
  lit "You are an AI-powered Clinical Decision Support Assistant designed to help healthcare professionals.\n\nYour role is to:\n1. Analyze patient information, symptoms, and medical history\n2. Provide evidence-based clinical insights and suggestions\n3. Flag potential drug interactions and contraindications\n4. Reference relevant medical guidelines and research\n5. Support differential diagnosis considerations\n\nIMPORTANT GUIDELINES:\n- Always emphasize that final clinical decisions must be made by qualified healthcare professionals\n- Cite sources when providing medical information\n- Flag any critical or emergency symptoms that require immediate attention\n- Consider patient-specific factors (age, comorbidities, allergies)\n- Provide confidence levels for your suggestions when appropriate\n\nYou have access to:\n- Medical guidelines and protocols\n- Drug information from openFDA\n- Patient records and history (when provided)\n- Clinical research summaries\n\nFormat your responses clearly with sections for:\n- Clinical Assessment\n- Relevant Guidelines\n- Drug Considerations\n- Recommendations\n- References\n"

/-- `LLMHandler` (`src/llm_handler.py`): configured keys and models, the two
optional backend clients in priority order (Groq, then OpenAI), and the
provider chosen at construction. -/
structure LLMHandler where
  groq_api_key : Str
  openai_api_key : Str
  groq_model : Str
  openai_model : Str
  groq_client : Option Backend
  openai_client : Option Backend
  active_provider : Option Str
  system_prompt : Str

/-- `LLMHandler.__init__` (`src/llm_handler.py` lines 18-56): try to build a
Groq client when its key is set, falling back to OpenAI; client construction
may itself raise (`groq_ctor` / `openai_ctor` model the SDK constructors).
Returns the handler and the log lines written. -/
def LLMHandler.init (groq_api_key openai_api_key groq_model openai_model : Str)
    (groq_ctor openai_ctor : Except Str Backend) : LLMHandler × List Str :=
  let st0 : LLMHandler :=
    { groq_api_key, openai_api_key, groq_model, openai_model
      groq_client := none, openai_client := none, active_provider := none
      system_prompt := CLINICAL_SYSTEM_PROMPT }
  let (st1, log1) :=
    if groq_api_key.isEmpty then (st0, [])
    else match groq_ctor with
      | .ok c =>
        ({ st0 with groq_client := some c, active_provider := some (lit "groq") },
         [lit "LLM initialized: Groq (" ++ groq_model ++ lit ")"])
      | .error e => (st0, [lit "Failed to initialize Groq client: " ++ e])
  let (st2, log2) :=
    if st1.active_provider.isNone && !openai_api_key.isEmpty then
      match openai_ctor with
      | .ok c =>
        ({ st1 with openai_client := some c, active_provider := some (lit "openai") },
         [lit "LLM initialized: OpenAI (" ++ openai_model ++ lit ")"])
      | .error e => (st1, [lit "Failed to initialize OpenAI client: " ++ e])
    else (st1, [])
  let log3 :=
    if st2.active_provider.isNone then [lit "No LLM provider available — retrieval-only mode"]
    else []
  (st2, log1 ++ log2 ++ log3)

/-- `LLMHandler.is_available` (`src/llm_handler.py` lines 58-60). -/
def LLMHandler.is_available (h : LLMHandler) : Bool := h.active_provider.isSome

/-- `LLMHandler._format_drug_info` (`src/llm_handler.py` lines 143-162). -/
def LLMHandler.format_drug_info (h : LLMHandler) (drug_info : DrugInfo) : Str :=
  let perDrug := (drug_info.drugs.map (fun p =>
    [lit "\n### " ++ p.1] ++
    (if p.2.found then
      (match p.2.warnings with
        | [] => []
        | w :: _ => [lit "**Warnings:** " ++ w.take 500 ++ lit "..."]) ++
      (match p.2.contraindications with
        | [] => []
        | c :: _ => [lit "**Contraindications:** " ++ c.take 500 ++ lit "..."]) ++
      (if p.2.common_adverse_events.isEmpty then []
       else [lit "**Common Adverse Events:** " ++
              pyJoin (lit ", ") (p.2.common_adverse_events.take 10)])
     else [lit "No FDA data found for this drug."]))).flatten
  let withInter := perDrug ++
    (if drug_info.potential_interactions.isEmpty then []
     else [lit "\n### Potential Drug Interactions\n" ++
            pyJoin ['\n'] drug_info.potential_interactions])
  pyJoin ['\n'] withInter

/-- `LLMHandler._build_prompt` (`src/llm_handler.py` lines 122-141). -/
def LLMHandler.build_prompt (h : LLMHandler) (query : Str) (context : Option Str)
    (drug_info : Option DrugInfo) : Str :=
  let parts := [lit "## Clinical Query\n" ++ query]
  let parts := parts ++
    (match context with
      | some c =>
        if c.isEmpty then []
        else [lit "\n## Relevant Medical Information (from knowledge base)\n" ++ c]
      | none => [])
  let parts := parts ++
    (match drug_info with
      | some di => [lit "\n## Drug Information (from openFDA)\n" ++ h.format_drug_info di]
      | none => [])
  let parts := parts ++
    [lit "\n## Instructions\nBased on the above information, provide a comprehensive clinical assessment. Include relevant guidelines, potential concerns, and recommendations."]
  pyJoin ['\n'] parts

/-- `LLMHandler._generate_fallback_response` (`src/llm_handler.py`
lines 164-190): the degraded retrieval-only answer built without any LLM. -/
def LLMHandler.generate_fallback_response (h : LLMHandler) (query : Str)
    (context : Option Str) (drug_info : Option DrugInfo) : Str :=
  let parts := [lit "## Clinical Decision Support Response",
                lit "(Note: LLM unavailable — showing retrieved information only)",
                lit "\n### Query: " ++ query]
  let parts := parts ++
    (match context with
      | some c => if c.isEmpty then [] else [lit "\n### Relevant Medical Guidelines:\n" ++ c]
      | none => [])
  let parts := parts ++
    (match drug_info with
      | some di =>
        [lit "\n### Drug Information:"] ++
        (di.drugs.map (fun p =>
          [lit "\n**" ++ p.1 ++ lit ":**"] ++
          (if p.2.common_adverse_events.isEmpty then []
           else [lit "- Adverse events: " ++
                  pyJoin (lit ", ") (p.2.common_adverse_events.take 5)]))).flatten
      | none => [])
  let parts := parts ++
    [lit "\n\n**Disclaimer:** Please consult with qualified healthcare professionals for medical decisions."]
  pyJoin ['\n'] parts

/-- The `messages` list assembled in `generate_response`
(`src/llm_handler.py` lines 88-92). -/
def LLMHandler.chat_messages (h : LLMHandler) (query : Str) (context : Option Str)
    (drug_info : Option DrugInfo) : List Message :=
  [(lit "system", h.system_prompt),
   (lit "user", h.build_prompt query context drug_info)]

/-- `LLMHandler.generate_response` (`src/llm_handler.py` lines 71-120): if no
provider is available return the fallback; otherwise try Groq, logging its
failure cause and advancing to OpenAI, logging again and degrading to the
fallback if both fail.  Returns the text and the error log lines written. -/
def LLMHandler.generate_response (h : LLMHandler) (query : Str) (context : Option Str)
    (drug_info : Option DrugInfo) : Str × List Str :=
  if !h.is_available then
    (h.generate_fallback_response query context drug_info, [])
  else
    let messages := h.chat_messages query context drug_info
    match h.groq_client with
    | some client =>
      match client messages with
      | .ok text => (text, [])
      | .error e =>
        let log1 := [lit "Groq generation failed: " ++ e]
        match h.openai_client with
        | some client2 =>
          match client2 messages with
          | .ok text => (text, log1)
          | .error e2 =>
            (h.generate_fallback_response query context drug_info,
             log1 ++ [lit "OpenAI generation failed: " ++ e2])
        | none => (h.generate_fallback_response query context drug_info, log1)
    | none =>
      match h.openai_client with
      | some client2 =>
        match client2 messages with
        | .ok text => (text, [])
        | .error e2 =>
          (h.generate_fallback_response query context drug_info,
           [lit "OpenAI generation failed: " ++ e2])
      | none => (h.generate_fallback_response query context drug_info, [])

/-- The external medical-data aggregator (`src/medical_apis.py`), consumed
through its report operation only; its network behaviour is a parameter. -/
structure MedicalDataAggregator where
  get_comprehensive_drug_report : List Str → DrugInfo

/-- The patient-info dict accepted by `RAGPipeline.query`; a `some` field
models the key being present. -/
structure PatientInfo where
  age : Option Nat
  gender : Option Str
  medical_history : Option (List Str)
  allergies : Option (List Str)
deriving DecidableEq, Repr

/-- `RAGPipeline` (`src/rag_pipeline.py` lines 12-38). -/
structure RAGPipeline where
  vector_store : VectorStore
  llm_handler : LLMHandler
  medical_aggregator : MedicalDataAggregator

/-- Render a natural number in decimal, as Python string formatting does. -/
def natToStr (n : Nat) : Str := (Nat.repr n).toList

/-- Exact-rational rendering of Python's `f"{score:.2f}"`: the integer part
and two decimal digits of the (non-negative) score. -/
def formatScore2 (q : ℚ) : Str :=
  let cents := (q * 100).floor.toNat
  natToStr (cents / 100) ++ ['.'] ++
    natToStr (cents % 100 / 10) ++ natToStr (cents % 10)

/-- Look a string value up in a metadata dict with a default
(Python `metadata.get(key, default)`). -/
def metaGetStr (m : Meta) (k : Str) (dflt : Str) : Str :=
  match m.lookup k with
  | some (MVal.str s) => s
  | some (MVal.num n) => natToStr n
  | none => dflt

/-- `RAGPipeline._format_context` (`src/rag_pipeline.py` lines 87-100). -/
def RAGPipeline.format_context (documents : List SearchResult) : Str :=
  if documents.isEmpty then lit "No relevant documents found in the knowledge base."
  else
    pyJoin (lit "\n\n") (documents.enum.map (fun p =>
      lit "[Source " ++ natToStr (p.1 + 1) ++ lit "] (Relevance: " ++
        formatScore2 p.2.score ++ lit ")\n" ++ p.2.content ++
        lit "\n(From: " ++ metaGetStr p.2.metadata (lit "source") (lit "Unknown") ++ lit ")"))

/-- `RAGPipeline._build_enhanced_query` (`src/rag_pipeline.py` lines 102-126). -/
def RAGPipeline.build_enhanced_query (question : Str) (patient_info : Option PatientInfo) : Str :=
  let query_parts := [question]
  let query_parts := query_parts ++
    (match patient_info with
      | some pi =>
        let ctx :=
          (match pi.age with | some a => [lit "Age: " ++ natToStr a] | none => []) ++
          (match pi.gender with | some g => [lit "Gender: " ++ g] | none => []) ++
          (match pi.medical_history with
            | some hist => [lit "Medical History: " ++ pyJoin (lit ", ") hist]
            | none => []) ++
          (match pi.allergies with
            | some alg => [lit "Allergies: " ++ pyJoin (lit ", ") alg]
            | none => [])
        if ctx.isEmpty then [] else [lit "\nPatient Context:\n" ++ pyJoin ['\n'] ctx]
      | none => [])
  pyJoin ['\n'] query_parts

/-- The values stored in the result dict returned by `RAGPipeline.query`. -/
inductive PyVal
  | str (s : Str)
  | results (rs : List SearchResult)
  | drugReport (d : Option DrugInfo)
  | patient (p : Option PatientInfo)
  | meds (m : Option (List Str))
deriving DecidableEq, Repr

/-- Observable pipeline effects: which stage operations `query` invokes. -/
inductive StageCall
  | search (query : Str) (k : Nat)
  | drugReport (medications : List Str)
  | generate
deriving DecidableEq, Repr

/-- `RAGPipeline.query` (`src/rag_pipeline.py` lines 40-85): retrieve from
the vector store, fetch the drug report when medications are given, build the
enhanced query, generate, and return the result dict (whose keys are exactly
the six listed at lines 78-85).  Also returns the trace of stage calls. -/
def RAGPipeline.query (p : RAGPipeline) (question : Str)
    (patient_info : Option PatientInfo) (medications : Option (List Str))
    (num_results : Nat) : List (Str × PyVal) × List StageCall :=
  let retrieved_docs := p.vector_store.search question num_results
  let context := RAGPipeline.format_context retrieved_docs
  let (drug_info, trace2) :=
    match medications with
    | some meds =>
      if meds.isEmpty then (none, [])
      else (some (p.medical_aggregator.get_comprehensive_drug_report meds),
            [StageCall.drugReport meds])
    | none => (none, [])
  let enhanced_query := RAGPipeline.build_enhanced_query question patient_info
  let response := (p.llm_handler.generate_response enhanced_query (some context) drug_info).1
  ([(lit "response", PyVal.str response),
    (lit "retrieved_documents", PyVal.results retrieved_docs),
    (lit "drug_information", PyVal.drugReport drug_info),
    (lit "query", PyVal.str question),
    (lit "patient_info", PyVal.patient patient_info),
    (lit "medications", PyVal.meds medications)],
   [StageCall.search question num_results] ++ trace2 ++ [StageCall.generate])

/-- The `question` constraint of the HTTP request schema `ClinicalQuery`
(`api/main.py` lines 115-118): `min_length=3, max_length=2000`. -/
def clinicalQueryQuestionValid (question : Str) : Bool :=
  3 ≤ question.length && question.length ≤ 2000

/-! Concrete fixtures used to instantiate the theorems below. -/

/-- A deterministic one-dimensional embedder: the text's length. -/
def demoEngine : EmbeddingEngine := ⟨fun s => [(s.length : ℚ)]⟩

/-- A sample passage. -/
def demoDoc : Document :=
  { content := lit "Metformin is the first-line treatment for type 2 diabetes."
    metadata := [(lit "source", MVal.str (lit "ADA Guidelines")),
                 (lit "category", MVal.str (lit "endocrinology"))] }

/-- A store holding one indexed passage. -/
def demoStore : VectorStore :=
  { dimension := 1
    index_path := some (lit "./data/faiss_index")
    embedding_engine := demoEngine
    index := [[(10 : ℚ)]]
    documents := [demoDoc] }

/-- A freshly constructed, empty store. -/
def freshStore : VectorStore :=
  { dimension := 1
    index_path := none
    embedding_engine := demoEngine
    index := []
    documents := [] }

/-- A directory holding only the passage artifact, not the vector artifact. -/
def halfDisk : DiskDir := { index_file := none, docs_file := some [demoDoc] }

/-- A backend that always fails with a fixed cause. -/
def demoBackendFail : Backend := fun _ => .error (lit "rate limit exceeded")

/-- A backend that always succeeds with a fixed answer. -/
def demoBackendOk : Backend := fun _ => .ok (lit "Start metformin first-line.")

/-- A handler with two configured backends: Groq (fails) then OpenAI (succeeds). -/
def demoHandlerAB : LLMHandler :=
  { groq_api_key := lit "k1"
    openai_api_key := lit "k2"
    groq_model := lit "llama-3.3-70b-versatile"
    openai_model := lit "gpt-3.5-turbo"
    groq_client := some demoBackendFail
    openai_client := some demoBackendOk
    active_provider := some (lit "groq")
    system_prompt := CLINICAL_SYSTEM_PROMPT }

/-- A handler with zero configured backends (retrieval-only mode). -/
def demoHandlerNone : LLMHandler :=
  { groq_api_key := []
    openai_api_key := []
    groq_model := lit "llama-3.3-70b-versatile"
    openai_model := lit "gpt-3.5-turbo"
    groq_client := none
    openai_client := none
    active_provider := none
    system_prompt := CLINICAL_SYSTEM_PROMPT }

/-- An aggregator whose report is always empty. -/
def demoAggregator : MedicalDataAggregator := ⟨fun _ => ⟨[], []⟩⟩

/-- A pipeline over the demo fixtures. -/
def demoPipeline : RAGPipeline := ⟨demoStore, demoHandlerNone, demoAggregator⟩

/-! Helper lemmas. -/

/-- Any element of a list is an infix of its `pyJoin`. -/
theorem mem_infix_pyJoin (sep : Str) (a : Str) :
    ∀ l : List Str, a ∈ l → a <:+: pyJoin sep l := by
  intro l
  induction l with
  | nil => intro h; cases h
  | cons x xs ih =>
    intro h
    cases xs with
    | nil =>
      rcases List.mem_cons.mp h with h | h
      · exact ⟨[], [], by simp [pyJoin, h]⟩
      · cases h
    | cons y ys =>
      rcases List.mem_cons.mp h with h | h
      · exact ⟨[], sep ++ pyJoin sep (y :: ys), by simp [pyJoin, h]⟩
      · obtain ⟨s, t, hst⟩ := ih h
        exact ⟨x ++ sep ++ s, t, by simp [pyJoin, ← hst]⟩

/-- `pyJoin` over a list with a non-empty head is non-empty. -/
theorem pyJoin_ne_nil (sep x : Str) (xs : List Str) (hx : x ≠ []) :
    pyJoin sep (x :: xs) ≠ [] := by
  cases xs with
  | nil => simpa [pyJoin] using hx
  | cons y ys => simp [pyJoin, hx]

theorem delWs_append (a b : Str) : delWs (a ++ b) = delWs a ++ delWs b := by
  simp [delWs]

theorem delWs_delWs (s : Str) : delWs (delWs s) = delWs s := by
  simp [delWs, List.filter_filter]

theorem delWs_dropWhile (s : Str) : delWs (s.dropWhile isPySpace) = delWs s := by
  conv_rhs => rw [← List.takeWhile_append_dropWhile isPySpace s]
  rw [delWs_append]
  have h : delWs (s.takeWhile isPySpace) = [] := by
    rw [delWs, List.filter_eq_nil_iff]
    intro a ha
    simp [List.mem_takeWhile_imp ha]
  rw [h, List.nil_append]

theorem delWs_reverse (s : Str) : delWs s.reverse = (delWs s).reverse := by
  simp [delWs]

theorem delWs_pyStrip (s : Str) : delWs (pyStrip s) = delWs s := by
  unfold pyStrip
  rw [delWs_reverse, delWs_dropWhile, delWs_reverse, delWs_dropWhile, List.reverse_reverse]

theorem pyStrip_length_le (s : Str) : (pyStrip s).length ≤ s.length := by
  unfold pyStrip
  calc (((s.dropWhile isPySpace).reverse.dropWhile isPySpace).reverse).length
      = ((s.dropWhile isPySpace).reverse.dropWhile isPySpace).length := by
        rw [List.length_reverse]
    _ ≤ (s.dropWhile isPySpace).reverse.length :=
        (List.dropWhile_sublist isPySpace).length_le
    _ = (s.dropWhile isPySpace).length := by rw [List.length_reverse]
    _ ≤ s.length := (List.dropWhile_sublist isPySpace).length_le

theorem mem_of_mem_pyStrip {s : Str} {c : Char} (h : c ∈ pyStrip s) : c ∈ s := by
  unfold pyStrip at h
  rw [List.mem_reverse] at h
  have h2 := (List.dropWhile_sublist isPySpace).subset h
  rw [List.mem_reverse] at h2
  exact (List.dropWhile_sublist isPySpace).subset h2

theorem pyStrip_chunkOK {cs : Nat} {s : Str} (h : chunkOK cs s) : chunkOK cs (pyStrip s) := by
  rcases h with h | h
  · exact Or.inl (le_trans (pyStrip_length_le s) h)
  · exact Or.inr (fun c hc => h c (mem_of_mem_pyStrip hc))

theorem delWs_cons (c : Char) (s : Str) :
    delWs (c :: s) = (if isPySpace c then [] else [c]) ++ delWs s := by
  by_cases hc : isPySpace c <;> simp [delWs, List.filter_cons, hc]

theorem pySplitAux_words (s : Str) :
    ∀ acc, wordOnly acc → ∀ w ∈ pySplitAux s acc, w ≠ [] ∧ wordOnly w := by
  induction s with
  | nil =>
    intro acc hacc w hw
    by_cases hemp : acc.isEmpty
    · simp [pySplitAux, hemp] at hw
    · simp only [pySplitAux, hemp, if_false, Bool.false_eq_true, List.mem_singleton] at hw
      subst hw
      refine ⟨?_, fun c hc => hacc c (List.mem_reverse.mp hc)⟩
      simp only [ne_eq, List.reverse_eq_nil_iff]
      exact fun h => by simp [h] at hemp
  | cons c rest ih =>
    intro acc hacc w hw
    simp only [pySplitAux] at hw
    by_cases hc : isPySpace c
    · simp only [hc, if_true] at hw
      by_cases hemp : acc.isEmpty
      · simp only [hemp, if_true] at hw
        exact ih [] (by intro x hx; cases hx) w hw
      · simp only [hemp, Bool.false_eq_true, if_false, List.mem_cons] at hw
        rcases hw with hw | hw
        · subst hw
          refine ⟨?_, fun x hx => hacc x (List.mem_reverse.mp hx)⟩
          simp only [ne_eq, List.reverse_eq_nil_iff]
          exact fun h => by simp [h] at hemp
        · exact ih [] (by intro x hx; cases hx) w hw
    · simp only [hc, Bool.false_eq_true, if_false] at hw
      refine ih (c :: acc) ?_ w hw
      intro x hx
      rcases List.mem_cons.mp hx with hx | hx
      · subst hx; simpa using hc
      · exact hacc x hx

theorem pySplit_words (s : Str) : ∀ w ∈ pySplit s, w ≠ [] ∧ wordOnly w :=
  pySplitAux_words s [] (fun x hx => by cases hx)

theorem pySplitAux_flatten (s : Str) :
    ∀ acc, (pySplitAux s acc).flatten = acc.reverse ++ delWs s := by
  induction s with
  | nil =>
    intro acc
    by_cases hemp : acc.isEmpty
    · have h0 : acc = [] := List.isEmpty_iff.mp hemp
      subst h0
      simp [pySplitAux, delWs]
    · simp [pySplitAux, hemp, delWs]
  | cons c rest ih =>
    intro acc
    simp only [pySplitAux]
    by_cases hc : isPySpace c
    · by_cases hemp : acc.isEmpty
      · have h0 : acc = [] := List.isEmpty_iff.mp hemp
        subst h0
        simp [hc, ih, delWs_cons]
      · simp [hc, hemp, ih, delWs_cons]
    · simp [hc, ih (c :: acc), delWs_cons]

theorem pySplit_flatten (s : Str) : (pySplit s).flatten = delWs s := by
  simpa using pySplitAux_flatten s []

theorem splitNN_ne_nil (s : Str) : splitNN s ≠ [] := by
  induction s using splitNN.induct with
  | case1 => simp [splitNN]
  | case2 rest ih => simp [splitNN]
  | case3 c rest hne h ih => exact absurd h ih
  | case4 c rest hne p ps h ih =>
    have he : splitNN (c :: rest) = (c :: p) :: ps := by
      rw [splitNN.eq_def]
      split <;> simp_all
    simp [he]

theorem splitNN_delWs (s : Str) : ((splitNN s).map delWs).flatten = delWs s := by
  induction s using splitNN.induct with
  | case1 => simp [splitNN, delWs]
  | case2 rest ih =>
    have hnl : isPySpace '\n' = true := by decide
    simp only [splitNN, List.map_cons, List.flatten_cons, ih]
    simp [delWs_cons, hnl, delWs]
  | case3 c rest hne h ih => exact absurd h (splitNN_ne_nil rest)
  | case4 c rest hne p ps h ih =>
    have he : splitNN (c :: rest) = (c :: p) :: ps := by
      rw [splitNN.eq_def]
      split <;> simp_all
    rw [h] at ih
    simp only [List.map_cons, List.flatten_cons] at ih
    rw [he]
    simp only [List.map_cons, List.flatten_cons, delWs_cons, List.append_assoc, ih]

theorem delWs_space : delWs [' '] = [] := by decide

theorem delWs_nnSep : delWs nnSep = [] := by decide

theorem isPySpace_space : isPySpace ' ' = true := by decide

theorem isPySpace_nl : isPySpace '\n' = true := by decide

theorem packWords_chunkOK (cs : Nat) :
    ∀ (ws chunks : List Str) (cur : Str),
      (∀ ch ∈ chunks, chunkOK cs ch) → chunkOK cs cur → (∀ w ∈ ws, wordOnly w) →
      (∀ ch ∈ (packWords cs ws chunks cur).1, chunkOK cs ch) ∧
        chunkOK cs (packWords cs ws chunks cur).2 := by
  intro ws
  induction ws with
  | nil =>
    intro chunks cur hch hcur _
    simpa [packWords] using ⟨hch, hcur⟩
  | cons w ws ih =>
    intro chunks cur hch hcur hws
    have hw : wordOnly w := hws w (List.mem_cons_self w ws)
    have hws2 : ∀ x ∈ ws, wordOnly x := fun x hx => hws x (List.mem_cons_of_mem w hx)
    simp only [packWords]
    by_cases hle : cur.length + w.length + 1 ≤ cs
    · rw [if_pos hle]
      refine ih chunks _ hch ?_ hws2
      by_cases hemp : cur.isEmpty
      · have h0 : cur = [] := List.isEmpty_iff.mp hemp
        subst h0
        simp only [List.isEmpty_nil, if_true]
        exact Or.inl (by simp at hle; omega)
      · simp only [hemp, Bool.false_eq_true, if_false]
        refine Or.inl ?_
        simp only [List.length_append, List.length_singleton]
        omega
    · rw [if_neg hle]
      refine ih _ w ?_ (Or.inr hw) hws2
      intro ch hm
      by_cases hemp : cur.isEmpty
      · simp only [hemp, if_true] at hm
        exact hch ch hm
      · simp only [hemp, Bool.false_eq_true, if_false] at hm
        rcases List.mem_append.mp hm with hm | hm
        · exact hch ch hm
        · rw [List.mem_singleton] at hm
          subst hm
          exact hcur

theorem packParas_chunkOK (cs : Nat) :
    ∀ (ps chunks : List Str) (cur : Str),
      (∀ ch ∈ chunks, chunkOK cs ch) → chunkOK cs cur →
      (∀ ch ∈ (packParas cs ps chunks cur).1, chunkOK cs ch) ∧
        chunkOK cs (packParas cs ps chunks cur).2 := by
  intro ps
  induction ps with
  | nil =>
    intro chunks cur hch hcur
    simpa [packParas] using ⟨hch, hcur⟩
  | cons p ps ih =>
    intro chunks cur hch hcur
    simp only [packParas]
    by_cases hle : cur.length + p.length + 2 ≤ cs
    · rw [if_pos hle]
      refine ih chunks _ hch ?_
      by_cases hemp : cur.isEmpty
      · have h0 : cur = [] := List.isEmpty_iff.mp hemp
        subst h0
        simp only [List.isEmpty_nil, if_true]
        exact Or.inl (by simp at hle; omega)
      · simp only [hemp, Bool.false_eq_true, if_false]
        refine Or.inl ?_
        simp only [List.length_append, nnSep, List.length_cons, List.length_nil]
        omega
    · rw [if_neg hle]
      have hch1 : ∀ ch ∈ (if cur.isEmpty then chunks else chunks ++ [cur]), chunkOK cs ch := by
        intro ch hm
        by_cases hemp : cur.isEmpty
        · simp only [hemp, if_true] at hm
          exact hch ch hm
        · simp only [hemp, Bool.false_eq_true, if_false] at hm
          rcases List.mem_append.mp hm with hm | hm
          · exact hch ch hm
          · rw [List.mem_singleton] at hm
            subst hm
            exact hcur
      by_cases hbig : cs < p.length
      · rw [if_pos hbig]
        have hr := packWords_chunkOK cs (pySplit p) _ [] hch1
          (Or.inl (by simp)) (fun w hw => (pySplit_words p w hw).2)
        exact ih _ _ hr.1 hr.2
      · rw [if_neg hbig]
        exact ih _ p hch1 (Or.inl (by omega))

theorem packWords_flatten (cs : Nat) :
    ∀ (ws chunks : List Str) (cur : Str),
      delWs ((packWords cs ws chunks cur).1.flatten ++ (packWords cs ws chunks cur).2) =
        delWs (chunks.flatten ++ (cur ++ ws.flatten)) := by
  intro ws
  induction ws with
  | nil =>
    intro chunks cur
    simp [packWords]
  | cons w ws ih =>
    intro chunks cur
    simp only [packWords]
    by_cases hle : cur.length + w.length + 1 ≤ cs
    · rw [if_pos hle, ih]
      by_cases hemp : cur.isEmpty
      · have h0 : cur = [] := List.isEmpty_iff.mp hemp
        subst h0
        simp [delWs_append, List.append_assoc]
      · simp [hemp, delWs_append, delWs_space, delWs_cons, isPySpace_space,
          List.append_assoc]
    · rw [if_neg hle, ih]
      by_cases hemp : cur.isEmpty
      · have h0 : cur = [] := List.isEmpty_iff.mp hemp
        subst h0
        simp [delWs_append, List.append_assoc]
      · simp [hemp, delWs_append, List.append_assoc]

theorem packParas_flatten (cs : Nat) :
    ∀ (ps chunks : List Str) (cur : Str),
      delWs ((packParas cs ps chunks cur).1.flatten ++ (packParas cs ps chunks cur).2) =
        delWs (chunks.flatten ++ (cur ++ ps.flatten)) := by
  intro ps
  induction ps with
  | nil =>
    intro chunks cur
    simp [packParas]
  | cons p ps ih =>
    intro chunks cur
    simp only [packParas]
    by_cases hle : cur.length + p.length + 2 ≤ cs
    · rw [if_pos hle, ih]
      by_cases hemp : cur.isEmpty
      · have h0 : cur = [] := List.isEmpty_iff.mp hemp
        subst h0
        simp [delWs_append, List.append_assoc]
      · simp [hemp, delWs_append, delWs_nnSep, List.append_assoc]
    · rw [if_neg hle]
      have hfl1 : delWs ((if cur.isEmpty then chunks else chunks ++ [cur]).flatten) =
          delWs chunks.flatten ++ delWs cur := by
        by_cases hemp : cur.isEmpty
        · have h0 : cur = [] := List.isEmpty_iff.mp hemp
          subst h0
          simp [delWs]
        · simp [hemp, delWs_append]
      by_cases hbig : cs < p.length
      · rw [if_pos hbig]
        have hpw := packWords_flatten cs (pySplit p)
          (if cur.isEmpty then chunks else chunks ++ [cur]) []
        calc delWs (((packParas cs ps
                (packWords cs (pySplit p) (if cur.isEmpty then chunks else chunks ++ [cur]) []).1
                (packWords cs (pySplit p) (if cur.isEmpty then chunks else chunks ++ [cur]) []).2).1).flatten ++
              (packParas cs ps
                (packWords cs (pySplit p) (if cur.isEmpty then chunks else chunks ++ [cur]) []).1
                (packWords cs (pySplit p) (if cur.isEmpty then chunks else chunks ++ [cur]) []).2).2)
            = delWs ((packWords cs (pySplit p)
                  (if cur.isEmpty then chunks else chunks ++ [cur]) []).1.flatten ++
                ((packWords cs (pySplit p)
                  (if cur.isEmpty then chunks else chunks ++ [cur]) []).2 ++ ps.flatten)) := ih _ _
          _ = delWs ((packWords cs (pySplit p)
                  (if cur.isEmpty then chunks else chunks ++ [cur]) []).1.flatten ++
                (packWords cs (pySplit p)
                  (if cur.isEmpty then chunks else chunks ++ [cur]) []).2) ++
              delWs ps.flatten := by
                rw [← List.append_assoc, delWs_append]
          _ = delWs ((if cur.isEmpty then chunks else chunks ++ [cur]).flatten ++
                ([] ++ (pySplit p).flatten)) ++ delWs ps.flatten := by rw [hpw]
          _ = delWs (chunks.flatten ++ (cur ++ (p :: ps).flatten)) := by
                rw [List.nil_append, pySplit_flatten, delWs_append, hfl1]
                simp [delWs_append, delWs_delWs, List.append_assoc]
      · rw [if_neg hbig, ih]
        rw [delWs_append, hfl1]
        simp [delWs_append, List.append_assoc]

theorem enum_map_snd_comp {α β : Type} (l : List α) (f : α → β) :
    l.enum.map (fun p => f p.2) = l.map f := by
  have h : (fun p : Nat × α => f p.2) = f ∘ Prod.snd := rfl
  rw [h, ← List.map_map, List.enum_map_snd]

theorem delWs_flatten_map_pyStrip (chunks : List Str) :
    delWs ((chunks.map pyStrip).flatten) = delWs chunks.flatten := by
  induction chunks with
  | nil => rfl
  | cons c csx ih =>
    simp only [List.map_cons, List.flatten_cons, delWs_append, ih, delWs_pyStrip]

/-! Claim theorems. -/

/-- C5: for every document and positive `chunk_size`, every chunk emitted by
`chunk_document` has content of length at most `chunk_size`, except chunks
that are a single indivisible word longer than `chunk_size`. -/
theorem C5_chunk_length_bound (chunk_size : Nat) (hpos : 0 < chunk_size) (doc : Document) :
    ∀ d ∈ chunk_document chunk_size doc,
      d.content.length ≤ chunk_size ∨
        (chunk_size < d.content.length ∧ d.content ≠ [] ∧ wordOnly d.content) := by
  intro d hd
  unfold chunk_document at hd
  by_cases hlen : doc.content.length ≤ chunk_size
  · rw [if_pos hlen] at hd
    rw [List.mem_singleton] at hd
    subst hd
    exact Or.inl hlen
  · rw [if_neg hlen] at hd
    simp only [List.mem_map] at hd
    obtain ⟨ic, hic, rfl⟩ := hd
    show (pyStrip ic.2).length ≤ chunk_size ∨
      (chunk_size < (pyStrip ic.2).length ∧ pyStrip ic.2 ≠ [] ∧ wordOnly (pyStrip ic.2))
    have hpp := packParas_chunkOK chunk_size (splitNN doc.content) [] []
      (fun ch hm => by cases hm) (Or.inl (by simp))
    have hmem := List.snd_mem_of_mem_enum hic
    have hok : chunkOK chunk_size ic.2 := by
      by_cases hemp : (packParas chunk_size (splitNN doc.content) [] []).2.isEmpty
      · simp only [hemp, if_true] at hmem
        exact hpp.1 ic.2 hmem
      · simp only [hemp, Bool.false_eq_true, if_false] at hmem
        rcases List.mem_append.mp hmem with hm | hm
        · exact hpp.1 ic.2 hm
        · rw [List.mem_singleton] at hm
          rw [hm]
          exact hpp.2
    have hsok := pyStrip_chunkOK hok
    by_cases hsz : (pyStrip ic.2).length ≤ chunk_size
    · exact Or.inl hsz
    · rcases hsok with h | h
      · exact Or.inl h
      · refine Or.inr ⟨Nat.lt_of_not_le hsz, ?_, h⟩
        intro h0
        rw [h0] at hsz
        exact hsz (by simpa using Nat.le_of_lt hpos)

/-- C5 witness: the bound at a concrete long document and chunk size. -/
theorem C5_chunk_length_bound_witness :
    0 < 20 ∧
    ∀ d ∈ chunk_document 20 demoDoc,
      d.content.length ≤ 20 ∨
        (20 < d.content.length ∧ d.content ≠ [] ∧ wordOnly d.content) :=
  ⟨by decide, C5_chunk_length_bound 20 (by decide) demoDoc⟩

/-- C6: concatenating the chunk contents of `chunk_document`, in order,
recovers the original document text modulo the inserted and consumed
whitespace separators: both sides agree once every whitespace character is
deleted. -/
theorem C6_concat_recovers (chunk_size : Nat) (doc : Document) :
    delWs (((chunk_document chunk_size doc).map Document.content).flatten) =
      delWs doc.content := by
  unfold chunk_document
  by_cases hlen : doc.content.length ≤ chunk_size
  · rw [if_pos hlen]
    simp
  · rw [if_neg hlen]
    rw [List.map_map]
    have hcomp : (Document.content ∘ fun ic : Nat × Str =>
        ({ content := pyStrip ic.2,
           metadata := metaSet (metaSet doc.metadata (lit "chunk_index") (MVal.num ic.1))
             (lit "total_chunks")
             (MVal.num (if (packParas chunk_size (splitNN doc.content) [] []).2.isEmpty
               then (packParas chunk_size (splitNN doc.content) [] []).1
               else (packParas chunk_size (splitNN doc.content) [] []).1 ++
                 [(packParas chunk_size (splitNN doc.content) [] []).2]).length) } : Document)) =
        (fun ic : Nat × Str => pyStrip ic.2) := rfl
    rw [hcomp, enum_map_snd_comp _ pyStrip, delWs_flatten_map_pyStrip]
    have hfl : delWs ((if (packParas chunk_size (splitNN doc.content) [] []).2.isEmpty
        then (packParas chunk_size (splitNN doc.content) [] []).1
        else (packParas chunk_size (splitNN doc.content) [] []).1 ++
          [(packParas chunk_size (splitNN doc.content) [] []).2]).flatten) =
        delWs ((packParas chunk_size (splitNN doc.content) [] []).1.flatten ++
          (packParas chunk_size (splitNN doc.content) [] []).2) := by
      by_cases hemp : (packParas chunk_size (splitNN doc.content) [] []).2.isEmpty
      · have h0 := List.isEmpty_iff.mp hemp
        simp [hemp, h0]
      · simp [hemp, delWs_append]
    rw [hfl, packParas_flatten]
    have hnn : delWs ((splitNN doc.content).flatten) = delWs doc.content := by
      rw [delWs, List.filter_flatten]
      have hmc : (splitNN doc.content).map (List.filter (fun c => !isPySpace c)) =
          (splitNN doc.content).map delWs :=
        List.map_congr_left (fun a _ => rfl)
      rw [hmc]
      exact splitNN_delWs doc.content
    simpa using hnn

/-- C9: the claim fails on the code — for every vector-store state,
`add_documents []` raises instead of returning normally: the empty batch
embeds to `np.asarray([])`, a rank-1 array of shape `(0,)`, and the FAISS
add wrapper's `n, d = x.shape` unpacking raises `ValueError` there. -/
theorem C9_add_documents_empty_raises (vs : VectorStore) :
    vs.add_documents [] =
      .error (lit "not enough values to unpack (expected 2, got 1)") := by
  simp [VectorStore.add_documents, EmbeddingEngine.embed_texts, faissAdd]

/-- C8: saving to a non-empty path and loading the written artifacts into a
fresh store restores the pre-save `count` and every passage at its position. -/
theorem C8_save_load_roundtrip (vs fresh : VectorStore) (path : Str)
    (hp : path.isEmpty = false) :
    ∃ disk vs2, vs.save (some path) = .ok disk ∧
      fresh.load (some path) disk = .ok vs2 ∧
      vs2.count = vs.count ∧
      ∀ i, vs2.documents.get? i = vs.documents.get? i := by
  refine ⟨⟨some vs.index, some vs.documents⟩,
    { fresh with index := vs.index, documents := vs.documents }, ?_, ?_, rfl, fun i => rfl⟩
  · simp [VectorStore.save, truthyPath, hp, Option.orElse]
  · simp [VectorStore.load, truthyPath, hp, Option.orElse]

/-- C8 witness: the round trip at a concrete store, fresh store and path. -/
theorem C8_save_load_roundtrip_witness :
    (lit "p").isEmpty = false ∧
    (∃ disk vs2, demoStore.save (some (lit "p")) = .ok disk ∧
      freshStore.load (some (lit "p")) disk = .ok vs2 ∧
      vs2.count = demoStore.count ∧
      ∀ i, vs2.documents.get? i = demoStore.documents.get? i) :=
  ⟨rfl, C8_save_load_roundtrip demoStore freshStore (lit "p") rfl⟩

/-- C2 counterexample: a load whose directory holds only the passage artifact
(no vector artifact) returns normally — `.ok`, with only the passage side
restored — instead of raising a fatal load error. -/
theorem C2_partial_load_counterexample :
    halfDisk.index_file = none ∧ halfDisk.docs_file.isSome = true ∧
    freshStore.load (some (lit "p")) halfDisk =
      .ok { freshStore with documents := [demoDoc] } :=
  ⟨rfl, rfl, rfl⟩

/-- C2 amended: when exactly one of the two artifacts is present, `load`
returns normally, restoring the present side and leaving the other side of
the store unchanged (no error is raised). -/
theorem C2_amended_partial_load (vs : VectorStore) (path : Str)
    (hp : path.isEmpty = false) (idx : List (List ℚ)) (docs : List Document) :
    vs.load (some path) ⟨some idx, none⟩ = .ok { vs with index := idx } ∧
    vs.load (some path) ⟨none, some docs⟩ = .ok { vs with documents := docs } := by
  constructor <;> simp [VectorStore.load, truthyPath, hp, Option.orElse]

/-- C2 amended witness: the partial loads at a concrete store and path. -/
theorem C2_amended_partial_load_witness :
    (lit "p").isEmpty = false ∧
    (demoStore.load (some (lit "p")) ⟨some [[(3 : ℚ)]], none⟩ =
        .ok { demoStore with index := [[(3 : ℚ)]] } ∧
      demoStore.load (some (lit "p")) ⟨none, some [demoDoc]⟩ =
        .ok { demoStore with documents := [demoDoc] }) :=
  ⟨rfl, C2_amended_partial_load demoStore (lit "p") rfl [[(3 : ℚ)]] [demoDoc]⟩

/-- C1: with Groq and OpenAI both configured, if the Groq call fails and the
OpenAI call succeeds, `generate_response` returns OpenAI's text and logs
Groq's specific failure cause. -/
theorem C1_backend_failover (h : LLMHandler) (query : Str) (context : Option Str)
    (drug_info : Option DrugInfo) (fA fB : Backend) (cause textB : Str)
    (hgroq : h.groq_client = some fA)
    (hopenai : h.openai_client = some fB)
    (hactive : h.is_available = true)
    (hfail : fA (h.chat_messages query context drug_info) = .error cause)
    (hsucc : fB (h.chat_messages query context drug_info) = .ok textB) :
    (h.generate_response query context drug_info).1 = textB ∧
    (lit "Groq generation failed: " ++ cause) ∈
      (h.generate_response query context drug_info).2 := by
  simp [LLMHandler.generate_response, hactive, hgroq, hopenai, hfail, hsucc]

/-- C1 witness: the failover at a concrete handler whose Groq backend fails
with "rate limit exceeded" and whose OpenAI backend answers. -/
theorem C1_backend_failover_witness :
    demoHandlerAB.groq_client = some demoBackendFail ∧
    demoHandlerAB.openai_client = some demoBackendOk ∧
    demoHandlerAB.is_available = true ∧
    demoBackendFail (demoHandlerAB.chat_messages (lit "q") none none) =
      .error (lit "rate limit exceeded") ∧
    demoBackendOk (demoHandlerAB.chat_messages (lit "q") none none) =
      .ok (lit "Start metformin first-line.") ∧
    ((demoHandlerAB.generate_response (lit "q") none none).1 =
        lit "Start metformin first-line." ∧
      (lit "Groq generation failed: " ++ lit "rate limit exceeded") ∈
        (demoHandlerAB.generate_response (lit "q") none none).2) :=
  ⟨rfl, rfl, rfl, rfl, rfl,
    C1_backend_failover demoHandlerAB (lit "q") none none demoBackendFail demoBackendOk
      (lit "rate limit exceeded") (lit "Start metformin first-line.") rfl rfl rfl rfl rfl⟩

/-- C3: the result dict of the orchestrator's `query` carries exactly the six
keys of `rag_pipeline.py` lines 78-85 — there is no `timings` key at all, for
any input, contradicting the spec and the repository's own tests
(`tests/test_rag.py` asserts `result["timings"]`). -/
theorem C3_query_returns_no_timings (p : RAGPipeline) (question : Str)
    (patient_info : Option PatientInfo) (medications : Option (List Str))
    (num_results : Nat) :
    (p.query question patient_info medications num_results).1.map Prod.fst =
      [lit "response", lit "retrieved_documents", lit "drug_information",
       lit "query", lit "patient_info", lit "medications"] ∧
    lit "timings" ∉ (p.query question patient_info medications num_results).1.map Prod.fst := by
  have h : (p.query question patient_info medications num_results).1.map Prod.fst =
      [lit "response", lit "retrieved_documents", lit "drug_information",
       lit "query", lit "patient_info", lit "medications"] := by
    cases medications with
    | none => simp [RAGPipeline.query]
    | some meds =>
      by_cases hm : meds.isEmpty <;> simp [RAGPipeline.query, hm]
  refine ⟨h, ?_⟩
  rw [h]
  decide

/-- C4 counterexample: the orchestrator called directly with the empty
question does not reject it — the vector-store search runs (it is in the
trace) and a normal six-key result dict is returned. -/
theorem C4_empty_question_counterexample :
    StageCall.search [] 5 ∈ (demoPipeline.query [] none none 5).2 ∧
    (demoPipeline.query [] none none 5).1.map Prod.fst =
      [lit "response", lit "retrieved_documents", lit "drug_information",
       lit "query", lit "patient_info", lit "medications"] := by
  constructor
  · simp [RAGPipeline.query]
  · simp [RAGPipeline.query]

/-- C4 amended: the orchestrator's `query` performs no input validation — for
the empty question it still runs the vector-store search and returns
normally; only the HTTP layer's request schema (`question` length 3..2000)
rejects such input, before the orchestrator is invoked. -/
theorem C4_amended_no_orchestrator_validation (p : RAGPipeline)
    (patient_info : Option PatientInfo) (medications : Option (List Str))
    (num_results : Nat) :
    StageCall.search [] num_results ∈
      (p.query [] patient_info medications num_results).2 ∧
    clinicalQueryQuestionValid [] = false := by
  constructor
  · cases medications with
    | none => simp [RAGPipeline.query]
    | some meds =>
      by_cases hm : meds.isEmpty <;> simp [RAGPipeline.query, hm]
  · rfl

/-- The degraded fallback response always takes the shape
`pyJoin "\n" (header :: note :: query-line :: guidelines? ++ rest)`. -/
theorem generate_fallback_response_shape (h : LLMHandler) (query ctx : Str)
    (drug_info : Option DrugInfo) :
    ∃ rest : List Str,
      h.generate_fallback_response query (some ctx) drug_info =
        pyJoin ['\n']
          (lit "## Clinical Decision Support Response" ::
            lit "(Note: LLM unavailable — showing retrieved information only)" ::
            (lit "\n### Query: " ++ query) ::
            ((if ctx.isEmpty then []
              else [lit "\n### Relevant Medical Guidelines:\n" ++ ctx]) ++ rest)) := by
  cases drug_info with
  | none =>
    refine ⟨[lit "\n\n**Disclaimer:** Please consult with qualified healthcare professionals for medical decisions."], ?_⟩
    by_cases hc : ctx.isEmpty <;>
      simp [LLMHandler.generate_fallback_response, hc]
  | some di =>
    refine ⟨[lit "\n### Drug Information:"] ++
      (di.drugs.map (fun p =>
        [lit "\n**" ++ p.1 ++ lit ":**"] ++
        (if p.2.common_adverse_events.isEmpty then []
         else [lit "- Adverse events: " ++
                pyJoin (lit ", ") (p.2.common_adverse_events.take 5)]))).flatten ++
      [lit "\n\n**Disclaimer:** Please consult with qualified healthcare professionals for medical decisions."], ?_⟩
    by_cases hc : ctx.isEmpty <;>
      simp [LLMHandler.generate_fallback_response, hc]

/-- C10: with zero configured backends, `generate_response` returns normally
a non-empty string that carries the degraded-mode label and contains the
retrieved context passed to it. -/
theorem C10_zero_backends_degraded (h : LLMHandler) (query ctx : Str)
    (drug_info : Option DrugInfo) (hna : h.active_provider = none) :
    (h.generate_response query (some ctx) drug_info).1 ≠ [] ∧
    lit "(Note: LLM unavailable — showing retrieved information only)" <:+:
      (h.generate_response query (some ctx) drug_info).1 ∧
    ctx <:+: (h.generate_response query (some ctx) drug_info).1 := by
  have hres : h.generate_response query (some ctx) drug_info =
      (h.generate_fallback_response query (some ctx) drug_info, []) := by
    simp [LLMHandler.generate_response, LLMHandler.is_available, hna]
  rw [hres]
  obtain ⟨rest, hshape⟩ := generate_fallback_response_shape h query ctx drug_info
  simp only [hshape]
  refine ⟨?_, ?_, ?_⟩
  · exact pyJoin_ne_nil _ _ _ (by decide)
  · exact mem_infix_pyJoin _ _ _ (by simp)
  · by_cases hc : ctx.isEmpty
    · have hctx : ctx = [] := by simpa using hc
      subst hctx
      simp
    · have hmem : (lit "\n### Relevant Medical Guidelines:\n" ++ ctx) ∈
          (lit "## Clinical Decision Support Response" ::
            lit "(Note: LLM unavailable — showing retrieved information only)" ::
            (lit "\n### Query: " ++ query) ::
            ((if ctx.isEmpty then []
              else [lit "\n### Relevant Medical Guidelines:\n" ++ ctx]) ++ rest)) := by
        simp [hc]
      obtain ⟨s, t, hst⟩ := mem_infix_pyJoin ['\n'] _ _ hmem
      exact ⟨s ++ lit "\n### Relevant Medical Guidelines:\n", t,
        by simpa [List.append_assoc] using hst⟩

/-- C10 witness: the degraded response of a concrete handler with zero
backends, on a concrete query and retrieved context. -/
theorem C10_zero_backends_degraded_witness :
    demoHandlerNone.active_provider = none ∧
    ((demoHandlerNone.generate_response (lit "q") (some (lit "CONTEXT")) none).1 ≠ [] ∧
      lit "(Note: LLM unavailable — showing retrieved information only)" <:+:
        (demoHandlerNone.generate_response (lit "q") (some (lit "CONTEXT")) none).1 ∧
      lit "CONTEXT" <:+:
        (demoHandlerNone.generate_response (lit "q") (some (lit "CONTEXT")) none).1) :=
  ⟨rfl, C10_zero_backends_degraded demoHandlerNone (lit "q") (lit "CONTEXT") none rfl⟩

/-- Squared Euclidean distance is non-negative. -/
theorem sqDist_nonneg (q v : List ℚ) : 0 ≤ sqDist q v := by
  unfold sqDist
  apply List.sum_nonneg
  intro x hx
  obtain ⟨p, _, rfl⟩ := List.mem_map.mp hx
  positivity

/-- A hit's score is determined by its pair's distance. -/
theorem searchHit_score (vs : VectorStore) (di : ℚ × Nat) (r : SearchResult)
    (h : vs.searchHit di = some r) : r.score = 1 / (1 + di.1) := by
  unfold VectorStore.searchHit at h
  split at h
  · cases h; rfl
  · cases h

/-- Every pair the search considers carries a non-negative distance. -/
theorem search_pairs_nonneg (vs : VectorStore) (q : List ℚ) (x : ℚ × Nat)
    (hx : x ∈ (sortAsc (vs.index.enum.map (fun iv => (sqDist q iv.2, iv.1)))).take n) :
    0 ≤ x.1 := by
  have hx2 : x ∈ sortAsc (vs.index.enum.map (fun iv => (sqDist q iv.2, iv.1))) :=
    List.mem_of_mem_take hx
  have hx3 : x ∈ vs.index.enum.map (fun iv => (sqDist q iv.2, iv.1)) :=
    (List.perm_insertionSort distLE _).mem_iff.mp hx2
  obtain ⟨iv, _, rfl⟩ := List.mem_map.mp hx3
  exact sqDist_nonneg q iv.2

/-- C7: on a non-empty index, `search` returns at most `k` results, sorted by
non-increasing score, every score lying in `(0, 1]` with
`score = 1 / (1 + d)` for the squared Euclidean distance `d`. -/
theorem C7_search_contract (vs : VectorStore) (query : Str) (k : Nat)
    (hne : 0 < vs.count) :
    (vs.search query k).length ≤ k ∧
    ((vs.search query k).map SearchResult.score).Pairwise (fun a b => b ≤ a) ∧
    ∀ r ∈ vs.search query k, 0 < r.score ∧ r.score ≤ 1 := by
  have h0 : ¬ vs.count = 0 := Nat.pos_iff_ne_zero.mp hne
  have hsearch : vs.search query k =
      ((sortAsc ((vs.index.enum.map
          (fun iv => (sqDist (vs.embedding_engine.embed_text query) iv.2, iv.1))))).take
        (min k vs.count)).filterMap vs.searchHit := by
    simp [VectorStore.search, h0]
  set q := vs.embedding_engine.embed_text query with hq
  set top := (sortAsc ((vs.index.enum.map (fun iv => (sqDist q iv.2, iv.1))))).take
    (min k vs.count) with htop
  have hnn : ∀ x ∈ top, (0 : ℚ) ≤ x.1 := fun x hx => search_pairs_nonneg vs q x hx
  have hsorted : top.Pairwise distLE := by
    apply List.Pairwise.sublist (List.take_sublist _ _)
    exact List.sorted_insertionSort distLE _
  refine ⟨?_, ?_, ?_⟩
  · rw [hsearch]
    calc (top.filterMap vs.searchHit).length ≤ top.length :=
          List.length_filterMap_le _ _
      _ ≤ k := by
          rw [htop]
          simp only [List.length_take]
          omega
  · rw [hsearch]
    rw [List.pairwise_map, List.pairwise_filterMap]
    refine List.Pairwise.imp_of_mem ?_ hsorted
    intro a b ha hb hab
    intro x hxa y hyb
    have hxs : x.score = 1 / (1 + a.1) := searchHit_score vs a x hxa
    have hys : y.score = 1 / (1 + b.1) := searchHit_score vs b y hyb
    rw [hxs, hys]
    have h1 : (0 : ℚ) < 1 + a.1 := by have := hnn a ha; linarith
    exact one_div_le_one_div_of_le h1 (by have : a.1 ≤ b.1 := hab; linarith)
  · rw [hsearch]
    intro r hr
    obtain ⟨x, hx, hgx⟩ := List.mem_filterMap.mp hr
    have hxs : r.score = 1 / (1 + x.1) := searchHit_score vs x r hgx
    have h1 : (0 : ℚ) < 1 + x.1 := by have := hnn x hx; linarith
    constructor
    · rw [hxs]; positivity
    · rw [hxs]
      rw [div_le_one h1]
      have := hnn x hx; linarith

/-- C7 witness: the search contract at a concrete non-empty store. -/
theorem C7_search_contract_witness :
    0 < demoStore.count ∧
    ((demoStore.search (lit "diabetes") 3).length ≤ 3 ∧
      ((demoStore.search (lit "diabetes") 3).map SearchResult.score).Pairwise
        (fun a b => b ≤ a) ∧
      ∀ r ∈ demoStore.search (lit "diabetes") 3, 0 < r.score ∧ r.score ≤ 1) :=
  ⟨by decide, C7_search_contract demoStore (lit "diabetes") 3 (by decide)⟩

end CDSS
